import Mathlib

/-!
Verification development for the AstroBlasto game core (`src/main.rs`).

Conventions of the shallow embedding:
* `f32` arithmetic is modelled exactly over `ℚ`.
* A `Texture` is represented by its pixel dimensions (`width`, `height`):
  the only data the simulation reads from a texture is `texture.width()`
  and `texture.height()`.
* The square root computed by `mag_sq.sqrt()` and the trigonometric unit
  vector computed by `vec_from_angle` are irrational in general, so they
  are passed to the embedded functions as explicit parameters and
  characterized by hypotheses (`m ^ 2 = mag_sq`, unit norm) in theorems.
* Each `rand::random::<f32>()` draw is passed as an explicit stream of
  values, so the spawner is a deterministic function of its draws.
* A Rust `panic!` (including a failed `assert!`) is modelled as
  `Option.none`.
-/

/-- Constant `SHOT_SPEED` from `main.rs`. -/
def SHOT_SPEED : ℚ := 200

/-- Constant `PLAYER_THRUST` (acceleration in pixels per second). -/
def PLAYER_THRUST : ℚ := 100

/-- Constant `PLAYER_TURN_RATE` (rotation in radians per second). -/
def PLAYER_TURN_RATE : ℚ := 3

/-- Constant `PLAYER_SHOT_TIME` (seconds between shots). -/
def PLAYER_SHOT_TIME : ℚ := 1 / 2

/-- Constant `PLAYER_LIFE`. -/
def PLAYER_LIFE : ℚ := 1

/-- Constant `SHOT_LIFE`. -/
def SHOT_LIFE : ℚ := 2

/-- Constant `ROCK_LIFE`. -/
def ROCK_LIFE : ℚ := 1

/-- Constant `MAX_ROCK_VEL`. -/
def MAX_ROCK_VEL : ℚ := 50

/-- Constant `MAX_PHYSICS_VEL`. -/
def MAX_PHYSICS_VEL : ℚ := 250

/-- Embeds `Vec2::magnitude_squared` for a 2-d vector. -/
def magnitude_squared (v : ℚ × ℚ) : ℚ := v.1 ^ 2 + v.2 ^ 2

/-- Squared Euclidean distance between two points. -/
def distSq (p q : ℚ × ℚ) : ℚ := (p.1 - q.1) ^ 2 + (p.2 - q.2) ^ 2

/-- Spec-side predicate (the source never computes distances): the
Euclidean distance from `p` to `q` is at most `r`, stated without square
roots. -/
def distLe (p q : ℚ × ℚ) (r : ℚ) : Prop := 0 ≤ r ∧ distSq p q ≤ r ^ 2

/-- Spec-side predicate: the Euclidean distance from `p` to `q` is at
least `r` (trivially true for `r ≤ 0`). -/
def distGe (p q : ℚ × ℚ) (r : ℚ) : Prop := r ≤ 0 ∨ r ^ 2 ≤ distSq p q

/-- Spec-side predicate: the Euclidean distance from `p` to `q` is
strictly less than `r`. -/
def distLt (p q : ℚ × ℚ) (r : ℚ) : Prop := 0 ≤ r ∧ distSq p q < r ^ 2

instance (p q : ℚ × ℚ) (r : ℚ) : Decidable (distLe p q r) := by
  unfold distLe; infer_instance

instance (p q : ℚ × ℚ) (r : ℚ) : Decidable (distGe p q r) := by
  unfold distGe; infer_instance

instance (p q : ℚ × ℚ) (r : ℚ) : Decidable (distLt p q r) := by
  unfold distLt; infer_instance

/-- Embeds `struct Actor`.  The `texture` field is represented by its
pixel dimensions `width` and `height` (the values of `Actor::width` and
`Actor::height`); `pos`, `facing`, `velocity` and `life` are as in the
source. -/
structure ActorE where
  pos : ℚ × ℚ
  facing : ℚ
  velocity : ℚ × ℚ
  life : ℚ
  width : ℚ
  height : ℚ
  deriving DecidableEq

/-- Embeds `Actor::player_thrust`.  `dir` stands for the unit vector
`vec_from_angle(actor.facing)`, passed explicitly because sine and
cosine are irrational in general. -/
def player_thrust (dir : ℚ × ℚ) (actor : ActorE) (dt : ℚ) : ActorE :=
  { actor with velocity := (actor.velocity.1 + dir.1 * PLAYER_THRUST * dt,
                            actor.velocity.2 + dir.2 * PLAYER_THRUST * dt) }

/-- Embeds `Actor::update_actor_position`.  The source divides by
`mag_sq.sqrt()`; that square root is irrational in general, so it is
passed as the explicit parameter `m`, characterized in the theorems by
`0 ≤ m` and `m ^ 2 = magnitude_squared actor.velocity`. -/
def update_actor_position (actor : ActorE) (m dt : ℚ) : ActorE :=
  let mag_sq := magnitude_squared actor.velocity
  let v := if mag_sq > MAX_PHYSICS_VEL ^ 2 then
      (actor.velocity.1 / m * MAX_PHYSICS_VEL, actor.velocity.2 / m * MAX_PHYSICS_VEL)
    else actor.velocity
  { actor with velocity := v,
               pos := (actor.pos.1 + v.1 * dt, actor.pos.2 + v.2 * dt) }

/-- Embeds `Actor::wrap_actor_position`. -/
def wrap_actor_position (actor : ActorE) (sx sy : ℚ) : ActorE :=
  let screen_x_bounds := sx / 2
  let screen_y_bounds := sy / 2
  let px := if actor.pos.1 > screen_x_bounds then actor.pos.1 - sx
    else if actor.pos.1 < -screen_x_bounds then actor.pos.1 + sx
    else actor.pos.1
  let py := if actor.pos.2 > screen_y_bounds then actor.pos.2 - sy
    else if actor.pos.2 < -screen_y_bounds then actor.pos.2 + sy
    else actor.pos.2
  { actor with pos := (px, py) }

/-- Embeds `Actor::handle_timed_life`. -/
def handle_timed_life (actor : ActorE) (dt : ℚ) : ActorE :=
  { actor with life := actor.life - dt }

/-- C4: after `update_actor_position` the velocity magnitude is at most
`MAX_PHYSICS_VEL = 250`; a velocity whose pre-step magnitude exceeded
250 is rescaled to magnitude exactly 250 preserving its direction (a
positive scalar multiple), otherwise it is unchanged, and the position
advances by the post-clamp velocity times `dt`.  Magnitudes are stated
in squared form; `m` is the square root of the pre-step squared
magnitude, characterized by the two hypotheses. -/
theorem claim_C4_integrate_clamps (a : ActorE) (m dt : ℚ)
    (hm0 : 0 ≤ m) (hm : m ^ 2 = magnitude_squared a.velocity) :
    magnitude_squared (update_actor_position a m dt).velocity ≤ MAX_PHYSICS_VEL ^ 2 ∧
    (MAX_PHYSICS_VEL ^ 2 < magnitude_squared a.velocity →
      magnitude_squared (update_actor_position a m dt).velocity = MAX_PHYSICS_VEL ^ 2 ∧
      ∃ c : ℚ, 0 < c ∧ (update_actor_position a m dt).velocity =
        (c * a.velocity.1, c * a.velocity.2)) ∧
    (magnitude_squared a.velocity ≤ MAX_PHYSICS_VEL ^ 2 →
      (update_actor_position a m dt).velocity = a.velocity) ∧
    (update_actor_position a m dt).pos =
      (a.pos.1 + (update_actor_position a m dt).velocity.1 * dt,
       a.pos.2 + (update_actor_position a m dt).velocity.2 * dt) ∧
    (update_actor_position a m dt).facing = a.facing ∧
    (update_actor_position a m dt).life = a.life := by
  have hveq : (update_actor_position a m dt).velocity
      = (if magnitude_squared a.velocity > MAX_PHYSICS_VEL ^ 2 then
          (a.velocity.1 / m * MAX_PHYSICS_VEL, a.velocity.2 / m * MAX_PHYSICS_VEL)
        else a.velocity) := rfl
  by_cases h : magnitude_squared a.velocity > MAX_PHYSICS_VEL ^ 2
  · have hmpos : 0 < m := by
      rcases hm0.lt_or_eq with h1 | h1
      · exact h1
      · exfalso
        rw [← h1] at hm
        rw [← hm] at h
        norm_num [MAX_PHYSICS_VEL] at h
    have hmne : m ≠ 0 := ne_of_gt hmpos
    have hm2 : m ^ 2 = a.velocity.1 ^ 2 + a.velocity.2 ^ 2 := hm
    have hclamp : (update_actor_position a m dt).velocity
        = (a.velocity.1 / m * MAX_PHYSICS_VEL, a.velocity.2 / m * MAX_PHYSICS_VEL) := by
      rw [hveq, if_pos h]
    have hmag : magnitude_squared (update_actor_position a m dt).velocity
        = MAX_PHYSICS_VEL ^ 2 := by
      rw [hclamp]
      simp only [magnitude_squared]
      field_simp
      linear_combination (-(MAX_PHYSICS_VEL ^ 2)) * hm2
    refine ⟨le_of_eq hmag, fun _ => ⟨hmag, ?_⟩,
      fun hle => absurd h (not_lt.mpr hle), rfl, rfl, rfl⟩
    refine ⟨MAX_PHYSICS_VEL / m, div_pos (by norm_num [MAX_PHYSICS_VEL]) hmpos, ?_⟩
    rw [hclamp]
    simp only [Prod.mk.injEq]
    exact ⟨by ring, by ring⟩
  · push_neg at h
    have hsame : (update_actor_position a m dt).velocity = a.velocity := by
      rw [hveq, if_neg (not_lt.mpr h)]
    exact ⟨by rw [hsame]; exact h, fun hlt => absurd hlt (not_lt.mpr h),
      fun _ => hsame, rfl, rfl, rfl⟩

/-- Sample actor used to instantiate C4: velocity `(300, 400)` has
magnitude `500 > 250`. -/
def aC4 : ActorE :=
  { pos := (0, 0), facing := 0, velocity := (300, 400), life := 1, width := 1, height := 1 }

/-- Witness for C4 at the concrete actor `aC4` with `m = 500`, `dt = 1`. -/
theorem claim_C4_integrate_clamps_witness :
    magnitude_squared (update_actor_position aC4 500 1).velocity ≤ MAX_PHYSICS_VEL ^ 2 :=
  (claim_C4_integrate_clamps aC4 500 1 (by norm_num)
    (by norm_num [aC4, magnitude_squared])).1

/-- C8: `wrap_actor_position` is a no-op on an in-bounds position
(`|x| ≤ sx / 2` and `|y| ≤ sy / 2`), and each out-of-bounds coordinate
receives a single correction of plus or minus the corresponding screen
dimension.  The screen dimensions are assumed nonnegative. -/
theorem claim_C8_wrap_noop (a : ActorE) (sx sy : ℚ) (hsx : 0 ≤ sx) (hsy : 0 ≤ sy) :
    (|a.pos.1| ≤ sx / 2 → |a.pos.2| ≤ sy / 2 → wrap_actor_position a sx sy = a) ∧
    (sx / 2 < a.pos.1 → (wrap_actor_position a sx sy).pos.1 = a.pos.1 - sx) ∧
    (a.pos.1 < -(sx / 2) → (wrap_actor_position a sx sy).pos.1 = a.pos.1 + sx) ∧
    (sy / 2 < a.pos.2 → (wrap_actor_position a sx sy).pos.2 = a.pos.2 - sy) ∧
    (a.pos.2 < -(sy / 2) → (wrap_actor_position a sx sy).pos.2 = a.pos.2 + sy) := by
  refine ⟨fun hx hy => ?_, fun hx => ?_, fun hx => ?_, fun hy => ?_, fun hy => ?_⟩
  · rw [abs_le] at hx hy
    simp only [wrap_actor_position, not_lt.mpr hx.2, not_lt.mpr hy.2]
    rw [if_neg (by simpa using not_lt.mpr hx.2), if_neg (by simpa using not_lt.mpr hx.1),
        if_neg (by simpa using not_lt.mpr hy.2), if_neg (by simpa using not_lt.mpr hy.1)]
  · simp only [wrap_actor_position]
    rw [if_pos (by simpa using hx)]
  · have hx2 : ¬ (a.pos.1 > sx / 2) := by
      push_neg
      have : -(sx / 2) ≤ sx / 2 := by linarith
      linarith
    simp only [wrap_actor_position]
    rw [if_neg hx2, if_pos hx]
  · simp only [wrap_actor_position]
    rw [if_pos (by simpa using hy)]
  · have hy2 : ¬ (a.pos.2 > sy / 2) := by
      push_neg
      have : -(sy / 2) ≤ sy / 2 := by linarith
      linarith
    simp only [wrap_actor_position]
    rw [if_neg hy2, if_pos hy]

/-- Sample actor used to instantiate C8: position `(3, -4)` is in
bounds for an 800 by 600 screen. -/
def aC8 : ActorE :=
  { pos := (3, -4), facing := 0, velocity := (0, 0), life := 1, width := 1, height := 1 }

/-- Witness for C8 at the concrete in-bounds actor `aC8`. -/
theorem claim_C8_wrap_noop_witness : wrap_actor_position aC8 800 600 = aC8 :=
  (claim_C8_wrap_noop aC8 800 600 (by norm_num) (by norm_num)).1
    (by norm_num [aC8]) (by norm_num [aC8])

/-- Embeds one `rand::random::<f32>()`-driven rock draw inside
`create_rocks`.  `u` stands for `vec_from_angle(r_angle)` (a unit
vector), `t` for the draw used in `r_distance`, and `vu`, `vt` for the
angle unit vector and magnitude draw consumed by `random_vec` when the
rock velocity is chosen. -/
structure RockDraw where
  u : ℚ × ℚ
  t : ℚ
  vu : ℚ × ℚ
  vt : ℚ
  deriving DecidableEq

/-- Embeds the closure `new_rock` inside `create_rocks`: the
`assert!(max_radius > min_radius)` is modelled by returning `none`
(panic) when it fails; `Actor::create_rock` contributes `life =
ROCK_LIFE`, zero `facing`, and the rock texture dimensions; then
`r_distance = t * (max_radius - min_radius) + min_radius`, the position
is `exclusion + u * r_distance` and the velocity is
`vu * (vt * MAX_ROCK_VEL)` (from `random_vec MAX_ROCK_VEL`). -/
def new_rock (d : RockDraw) (rockW rockH : ℚ) (exclusion : ℚ × ℚ)
    (min_radius max_radius : ℚ) : Option ActorE :=
  if max_radius > min_radius then
    let r_distance := d.t * (max_radius - min_radius) + min_radius
    some { pos := (exclusion.1 + d.u.1 * r_distance, exclusion.2 + d.u.2 * r_distance),
           facing := 0,
           velocity := (d.vu.1 * (d.vt * MAX_ROCK_VEL), d.vu.2 * (d.vt * MAX_ROCK_VEL)),
           life := ROCK_LIFE,
           width := rockW, height := rockH }
  else none

/-- Embeds the counting loop of `create_rocks`, pushing one rock per
iteration; the first panic aborts the whole call.  The first argument
of the recursion is the index of the next random draw. -/
def create_rocks_from (draws : ℕ → RockDraw) (rockW rockH : ℚ) (exclusion : ℚ × ℚ)
    (min_radius max_radius : ℚ) : ℕ → ℕ → Option (List ActorE)
  | _, 0 => some []
  | i, Nat.succ k =>
    match new_rock (draws i) rockW rockH exclusion min_radius max_radius,
          create_rocks_from draws rockW rockH exclusion min_radius max_radius (i + 1) k with
    | some r, some rest => some (r :: rest)
    | _, _ => none

/-- Embeds `create_rocks` (the spawner): `num` rocks, each using the
next random draws. -/
def create_rocks (draws : ℕ → RockDraw) (rockW rockH : ℚ) (exclusion : ℚ × ℚ)
    (min_radius max_radius : ℚ) (num : ℕ) : Option (List ActorE) :=
  create_rocks_from draws rockW rockH exclusion min_radius max_radius 0 num

/-- When the precondition `min_radius < max_radius` holds, the spawner
never panics and returns exactly `num` rocks. -/
theorem create_rocks_from_length (draws : ℕ → RockDraw) (rockW rockH : ℚ)
    (exclusion : ℚ × ℚ) (min_radius max_radius : ℚ)
    (hlt : min_radius < max_radius) :
    ∀ num start, ∃ l,
      create_rocks_from draws rockW rockH exclusion min_radius max_radius start num = some l ∧
      l.length = num := by
  intro num
  induction num with
  | zero => intro start; exact ⟨[], rfl, rfl⟩
  | succ k ih =>
    intro start
    obtain ⟨l, hl, hlen⟩ := ih (start + 1)
    obtain ⟨r, hr⟩ : ∃ r,
        new_rock (draws start) rockW rockH exclusion min_radius max_radius = some r := by
      simp only [new_rock, if_pos hlt]
      exact ⟨_, rfl⟩
    refine ⟨r :: l, ?_, by simp [hlen]⟩
    simp only [create_rocks_from, hr, hl]

/-- Sample draw stream: every draw uses the unit vector `(0, 1)` and
the random value `0`. -/
def dEx : ℕ → RockDraw := fun _ => { u := (0, 1), t := 0, vu := (0, 1), vt := 0 }

/-- C6 counterexample: the claim says a spawner call with
`max_radius ≤ min_radius` aborts for any count, including `count = 0`,
and never returns a rock list.  But the `assert!` sits inside the
per-rock closure, which is never invoked when `num = 0`: the call
returns the empty rock list (here `min_radius = 5`, `max_radius = 3`). -/
theorem claim_C6_counterexample :
    create_rocks dEx 1 1 (0, 0) 5 3 0 = some [] := rfl

/-- C6 as amended: with `max_radius ≤ min_radius` the spawner panics
(fatally, producing no rock list) for every count of at least one, but
for `count = 0` the assertion is never reached and the call returns the
empty list. -/
theorem claim_C6_spawn_precondition (draws : ℕ → RockDraw) (rockW rockH : ℚ)
    (exclusion : ℚ × ℚ) (min_radius max_radius : ℚ) (num : ℕ)
    (hle : max_radius ≤ min_radius) :
    (1 ≤ num →
      create_rocks draws rockW rockH exclusion min_radius max_radius num = none) ∧
    create_rocks draws rockW rockH exclusion min_radius max_radius 0 = some [] := by
  refine ⟨fun hnum => ?_, rfl⟩
  obtain ⟨k, rfl⟩ : ∃ k, num = k + 1 := ⟨num - 1, by omega⟩
  simp only [create_rocks, create_rocks_from, new_rock, if_neg (not_lt.mpr hle)]

/-- Witness for C6 at `min_radius = 5`, `max_radius = 3`, `num = 1`. -/
theorem claim_C6_spawn_precondition_witness :
    (1 ≤ 1 → create_rocks dEx 1 1 (0, 0) 5 3 1 = none) ∧
    create_rocks dEx 1 1 (0, 0) 5 3 0 = some [] :=
  claim_C6_spawn_precondition dEx 1 1 (0, 0) 5 3 1 (by norm_num)

/-- Spawned rock produced by `dEx` with radii `[-2, -1]`: the radial
draw is `t = 0`, so `r_distance = -2` and the rock sits at Euclidean
distance `2` from the center. -/
def rockNeg : ActorE :=
  { pos := (0, -2), facing := 0, velocity := (0, 0), life := 1, width := 1, height := 1 }

/-- C5 counterexample: the claim quantifies over every call with
`max_radius > min_radius` and asserts every returned rock lies at
Euclidean distance between `min_radius` and `max_radius` from the
center.  With `min_radius = -2 < max_radius = -1` and draw `t = 0`,
`u = (0, 1)`, the returned rock is at distance `2` from the center,
which is not at most `max_radius = -1`. -/
theorem claim_C5_counterexample :
    create_rocks dEx 1 1 (0, 0) (-2) (-1) 1 = some [rockNeg] ∧
    ¬ distLe rockNeg.pos (0, 0) (-1) := by
  constructor
  · simp only [create_rocks, create_rocks_from, new_rock, dEx]
    norm_num [rockNeg, ROCK_LIFE]
  · norm_num [distLe, distSq, rockNeg]

/-- C5 as amended: for nonnegative `min_radius < max_radius`, any
count, and draws consisting of unit vectors and values in `[0, 1]`,
the spawner returns exactly `num` rocks, each at Euclidean distance
between `min_radius` and `max_radius` from the exclusion center
(distances stated in squared form by `distGe`/`distLe`). -/
theorem claim_C5_spawn_annulus (draws : ℕ → RockDraw) (rockW rockH : ℚ)
    (center : ℚ × ℚ) (min_radius max_radius : ℚ) (num : ℕ)
    (hlt : min_radius < max_radius) (h0 : 0 ≤ min_radius)
    (hd : ∀ i, i < num → (draws i).u.1 ^ 2 + (draws i).u.2 ^ 2 = 1 ∧
      0 ≤ (draws i).t ∧ (draws i).t ≤ 1) :
    ∃ l, create_rocks draws rockW rockH center min_radius max_radius num = some l ∧
      l.length = num ∧
      ∀ r ∈ l, distGe r.pos center min_radius ∧ distLe r.pos center max_radius := by
  suffices h : ∀ (n start : ℕ),
      (∀ i, start ≤ i → i < start + n → (draws i).u.1 ^ 2 + (draws i).u.2 ^ 2 = 1 ∧
        0 ≤ (draws i).t ∧ (draws i).t ≤ 1) →
      ∃ l, create_rocks_from draws rockW rockH center min_radius max_radius start n = some l ∧
        l.length = n ∧
        ∀ r ∈ l, distGe r.pos center min_radius ∧ distLe r.pos center max_radius by
    exact h num 0 (fun i _ hi => hd i (by omega))
  intro n
  induction n with
  | zero => exact fun start _ => ⟨[], rfl, rfl, fun r hr => absurd hr (List.not_mem_nil r)⟩
  | succ k ih =>
    intro start hdr
    obtain ⟨l, hl, hlen, hmem⟩ := ih (start + 1) (fun i h1 h2 => hdr i (by omega) (by omega))
    obtain ⟨hu, ht0, ht1⟩ := hdr start (le_refl start) (by omega)
    set d := (draws start).t * (max_radius - min_radius) + min_radius with hdd
    have hd0 : min_radius ≤ d := by nlinarith
    have hd1 : d ≤ max_radius := by nlinarith
    have hdsq : distSq (center.1 + (draws start).u.1 * d, center.2 + (draws start).u.2 * d)
        center = d ^ 2 := by
      simp only [distSq]
      nlinarith [hu]
    refine ⟨{ pos := (center.1 + (draws start).u.1 * d, center.2 + (draws start).u.2 * d),
              facing := 0,
              velocity := ((draws start).vu.1 * ((draws start).vt * MAX_ROCK_VEL),
                           (draws start).vu.2 * ((draws start).vt * MAX_ROCK_VEL)),
              life := ROCK_LIFE, width := rockW, height := rockH } :: l,
        ?_, by simp [hlen], ?_⟩
    · simp only [create_rocks_from, new_rock, if_pos hlt, hl, ← hdd]
    · intro r hr
      rcases List.mem_cons.mp hr with hr1 | hr2
      · subst hr1
        constructor
        · right
          rw [hdsq]
          nlinarith
        · refine ⟨by linarith, ?_⟩
          rw [hdsq]
          nlinarith
      · exact hmem r hr2

/-- Witness for C5 with one rock, radii `[3, 5]` and the draw stream
`dEx`. -/
theorem claim_C5_spawn_annulus_witness :
    ∃ l, create_rocks dEx 1 1 (0, 0) 3 5 1 = some l ∧
      l.length = 1 ∧
      ∀ r ∈ l, distGe r.pos (0, 0) 3 ∧ distLe r.pos (0, 0) 5 :=
  claim_C5_spawn_annulus dEx 1 1 (0, 0) 3 5 1 (by norm_num) (by norm_num)
    (fun i _ => by norm_num [dEx])

/-- Embeds `tetra::graphics::Rectangle` (position and size). -/
structure RectE where
  x : ℚ
  y : ℚ
  w : ℚ
  h : ℚ
  deriving DecidableEq

/-- Embeds `Rectangle::intersects` (axis-aligned overlap test with
strict inequalities). -/
def intersects (a b : RectE) : Bool :=
  decide (a.x < b.x + b.w) && decide (a.x + a.w > b.x) &&
  decide (a.y < b.y + b.h) && decide (a.y + a.h > b.y)

/-- Embeds the `Rectangle::new(pos.x, pos.y, width(), height())` bounds
built inside `GameState::handle_collision`. -/
def bound (a : ActorE) : RectE :=
  { x := a.pos.1, y := a.pos.2, w := a.width, h := a.height }

/-- The `bound_rock.intersects(&bound_shot)` test of `handle_collision`. -/
def rockShotHit (rock shot : ActorE) : Bool := intersects (bound rock) (bound shot)

/-- The `bound_rock.intersects(&bound_player)` test of `handle_collision`. -/
def rockPlayerHit (rock player : ActorE) : Bool := intersects (bound rock) (bound player)

/-- Embeds `struct GameState` (the fields the simulation core reads and
writes; `assets` and the per-tick `input` snapshot are passed
separately). -/
structure GameStateE where
  player : ActorE
  shots : List ActorE
  rocks : List ActorE
  level : ℤ
  score : ℤ
  screen_width : ℚ
  screen_height : ℚ
  player_shot_timeout : ℚ
  deriving DecidableEq

/-- Embeds the inner `for shot in &mut self.shots` loop of
`handle_collision` for one rock: every intersecting shot and the rock
get `life = 0` and the score is incremented once per intersecting
shot.  Returns the updated rock, the updated shots and the updated
score. -/
def handle_shots (rock : ActorE) : List ActorE → ℤ → ActorE × List ActorE × ℤ
  | [], score => (rock, [], score)
  | shot :: rest, score =>
    if rockShotHit rock shot then
      let r := handle_shots { rock with life := 0 } rest (score + 1)
      (r.1, { shot with life := 0 } :: r.2.1, r.2.2)
    else
      let r := handle_shots rock rest score
      (r.1, shot :: r.2.1, r.2.2)

/-- Embeds the outer `for rock in &mut self.rocks` loop of
`handle_collision`: per rock, first the player test, then the shot
loop.  Returns the updated player, shots, score and rocks. -/
def handle_rocks (player : ActorE) (shots : List ActorE) (score : ℤ) :
    List ActorE → ActorE × List ActorE × ℤ × List ActorE
  | [] => (player, shots, score, [])
  | rock :: rest =>
    let player1 := if rockPlayerHit rock player then { player with life := 0 } else player
    let hs := handle_shots rock shots score
    let hr := handle_rocks player1 hs.2.1 hs.2.2 rest
    (hr.1, hr.2.1, hr.2.2.1, hs.1 :: hr.2.2.2)

/-- Embeds `GameState::handle_collision`. -/
def handle_collision (s : GameStateE) : GameStateE :=
  let r := handle_rocks s.player s.shots s.score s.rocks
  { s with player := r.1, shots := r.2.1, score := r.2.2.1, rocks := r.2.2.2 }

/-- Embeds `GameState::clear_dead_stuff`. -/
def clear_dead_stuff (s : GameStateE) : GameStateE :=
  { s with shots := s.shots.filter (fun a => decide (a.life > 0)),
           rocks := s.rocks.filter (fun a => decide (a.life > 0)) }

/-- Setting `life` does not change an actor's bounding rectangle. -/
theorem bound_set_life (a : ActorE) (l : ℚ) : bound { a with life := l } = bound a := rfl

/-- The rock-shot test ignores the rock's `life` field. -/
theorem rockShotHit_rock_life (rock shot : ActorE) (l : ℚ) :
    rockShotHit { rock with life := l } shot = rockShotHit rock shot := rfl

/-- The rock-shot test ignores the shot's `life` field. -/
theorem rockShotHit_shot_life (rock shot : ActorE) (l : ℚ) :
    rockShotHit rock { shot with life := l } = rockShotHit rock shot := rfl

/-- The rock-player test ignores the player's `life` field. -/
theorem rockPlayerHit_player_life (rock player : ActorE) (l : ℚ) :
    rockPlayerHit rock { player with life := l } = rockPlayerHit rock player := rfl

/-- Zeroing `life` twice equals zeroing it once. -/
theorem set_life_twice (a : ActorE) :
    ({ { a with life := 0 } with life := 0 } : ActorE) = { a with life := 0 } := rfl

/-- The shots returned by the inner loop: each shot's `life` is zeroed
exactly when it intersects the rock, independently of the rock's
accumulated `life` updates. -/
theorem handle_shots_shots (shots : List ActorE) :
    ∀ (rock : ActorE) (score : ℤ),
      (handle_shots rock shots score).2.1 =
        shots.map (fun sh => if rockShotHit rock sh then { sh with life := 0 } else sh) := by
  induction shots with
  | nil => intro rock score; rfl
  | cons shot rest ih =>
    intro rock score
    cases hh : rockShotHit rock shot <;>
      simp [handle_shots, hh, ih, rockShotHit_rock_life]

/-- The rock returned by the inner loop: `life` zeroed exactly when
some shot intersects it. -/
theorem handle_shots_rock (shots : List ActorE) :
    ∀ (rock : ActorE) (score : ℤ),
      (handle_shots rock shots score).1 =
        if shots.any (fun sh => rockShotHit rock sh) then { rock with life := 0 } else rock := by
  induction shots with
  | nil => intro rock score; rfl
  | cons shot rest ih =>
    intro rock score
    cases hh : rockShotHit rock shot <;>
      simp [handle_shots, hh, ih, rockShotHit_rock_life, List.any_cons]

/-- The score returned by the inner loop: the old score plus the number
of shots intersecting the rock. -/
theorem handle_shots_score (shots : List ActorE) :
    ∀ (rock : ActorE) (score : ℤ),
      (handle_shots rock shots score).2.2 =
        score + (shots.countP (fun sh => rockShotHit rock sh) : ℤ) := by
  induction shots with
  | nil => intro rock score; simp [handle_shots]
  | cons shot rest ih =>
    intro rock score
    cases hh : rockShotHit rock shot
    · have hcount : List.countP (fun sh => rockShotHit rock sh) (shot :: rest)
          = List.countP (fun sh => rockShotHit rock sh) rest :=
        List.countP_cons_of_neg _ _ (by simp [hh])
      simp [handle_shots, hh, ih, hcount]
    · simp only [handle_shots, hh, if_true, ih, rockShotHit_rock_life]
      rw [List.countP_cons_of_pos _ _ hh]
      push_cast
      ring

/-- Composing the per-rock shot update for one rock with the update for
the remaining rocks gives the update for all rocks at once. -/
theorem shot_dead_compose (rock : ActorE) (rest : List ActorE) (sh : ActorE) :
    (fun sh2 => if rest.any (fun r => rockShotHit r sh2) then { sh2 with life := 0 } else sh2)
      (if rockShotHit rock sh then { sh with life := 0 } else sh)
    = if (rock :: rest).any (fun r => rockShotHit r sh) then { sh with life := 0 } else sh := by
  cases hh : rockShotHit rock sh <;>
    cases hr : rest.any (fun r => rockShotHit r sh) <;>
      simp [hh, hr, rockShotHit_shot_life, List.any_cons]

/-- Zeroing shot lives does not change how many shots intersect a rock. -/
theorem countP_hit_map (r rock : ActorE) (shots : List ActorE) :
    List.countP (fun sh => rockShotHit r sh)
      (shots.map (fun sh => if rockShotHit rock sh then { sh with life := 0 } else sh))
    = List.countP (fun sh => rockShotHit r sh) shots := by
  induction shots with
  | nil => rfl
  | cons sh rest ih =>
    cases hh : rockShotHit rock sh <;>
      simp [List.countP_cons, hh, ih, rockShotHit_shot_life]

/-- Zeroing shot lives does not change whether some shot intersects a
rock. -/
theorem any_hit_map (r rock : ActorE) (shots : List ActorE) :
    (shots.map (fun sh => if rockShotHit rock sh then { sh with life := 0 } else sh)).any
      (fun sh => rockShotHit r sh)
    = shots.any (fun sh => rockShotHit r sh) := by
  induction shots with
  | nil => rfl
  | cons sh rest ih =>
    cases hh : rockShotHit rock sh <;>
      simp [List.any_cons, hh, ih, rockShotHit_shot_life]

/-- The player produced by the rock loop: `life` zeroed exactly when
some rock's bounds intersect the player's bounds. -/
theorem handle_rocks_player (rocks : List ActorE) :
    ∀ (player : ActorE) (shots : List ActorE) (score : ℤ),
      (handle_rocks player shots score rocks).1 =
        if rocks.any (fun r => rockPlayerHit r player) then { player with life := 0 }
        else player := by
  induction rocks with
  | nil => intro player shots score; rfl
  | cons rock rest ih =>
    intro player shots score
    cases hp : rockPlayerHit rock player <;>
      simp [handle_rocks, hp, ih, rockPlayerHit_player_life, List.any_cons]

/-- The shots produced by the rock loop: each shot's `life` is zeroed
exactly when it intersects some rock. -/
theorem handle_rocks_shots (rocks : List ActorE) :
    ∀ (player : ActorE) (shots : List ActorE) (score : ℤ),
      (handle_rocks player shots score rocks).2.1 =
        shots.map (fun sh =>
          if rocks.any (fun r => rockShotHit r sh) then { sh with life := 0 } else sh) := by
  induction rocks with
  | nil =>
    intro player shots score
    simp [handle_rocks]
  | cons rock rest ih =>
    intro player shots score
    have : (handle_rocks player shots score (rock :: rest)).2.1 =
        (handle_rocks (if rockPlayerHit rock player then { player with life := 0 } else player)
          (handle_shots rock shots score).2.1
          (handle_shots rock shots score).2.2 rest).2.1 := rfl
    rw [this, ih, handle_shots_shots, List.map_map]
    exact List.map_congr_left (fun sh _ => shot_dead_compose rock rest sh)

/-- The score produced by the rock loop: the old score plus one per
intersecting rock-shot pair. -/
theorem handle_rocks_score (rocks : List ActorE) :
    ∀ (player : ActorE) (shots : List ActorE) (score : ℤ),
      (handle_rocks player shots score rocks).2.2.1 =
        score + ((rocks.map (fun r =>
          (List.countP (fun sh => rockShotHit r sh) shots : ℤ))).sum) := by
  induction rocks with
  | nil => intro player shots score; simp [handle_rocks]
  | cons rock rest ih =>
    intro player shots score
    have : (handle_rocks player shots score (rock :: rest)).2.2.1 =
        (handle_rocks (if rockPlayerHit rock player then { player with life := 0 } else player)
          (handle_shots rock shots score).2.1
          (handle_shots rock shots score).2.2 rest).2.2.1 := rfl
    rw [this, ih, handle_shots_shots, handle_shots_score]
    simp only [countP_hit_map, List.map_cons, List.sum_cons]
    rw [add_assoc]

/-- The rocks produced by the rock loop: each rock's `life` is zeroed
exactly when it intersects some shot (the original shots: zeroing shot
lives during the loop does not change the bounds tests). -/
theorem handle_rocks_rocks (rocks : List ActorE) :
    ∀ (player : ActorE) (shots : List ActorE) (score : ℤ),
      (handle_rocks player shots score rocks).2.2.2 =
        rocks.map (fun r =>
          if shots.any (fun sh => rockShotHit r sh) then { r with life := 0 } else r) := by
  induction rocks with
  | nil => intro player shots score; rfl
  | cons rock rest ih =>
    intro player shots score
    have : (handle_rocks player shots score (rock :: rest)).2.2.2 =
        (handle_shots rock shots score).1 ::
        (handle_rocks (if rockPlayerHit rock player then { player with life := 0 } else player)
          (handle_shots rock shots score).2.1
          (handle_shots rock shots score).2.2 rest).2.2.2 := rfl
    rw [this, ih, handle_shots_rock, handle_shots_shots, List.map_cons]
    congr 1
    exact List.map_congr_left (fun r _ => by rw [any_hit_map])

/-- A 12 by 12 rock at the origin. -/
def rockC1 : ActorE :=
  { pos := (0, 0), facing := 0, velocity := (0, 0), life := 1, width := 12, height := 12 }

/-- A 4 by 4 shot at `(-5, 0)`: its center is at distance 5 from the
rock's center, but its rectangle `[-5, -1] x [0, 4]` does not intersect
the rock's rectangle `[0, 12] x [0, 12]`. -/
def shotC1 : ActorE :=
  { pos := (-5, 0), facing := 0, velocity := (0, 0), life := 1, width := 4, height := 4 }

/-- A player far away from everything. -/
def playerFar : ActorE :=
  { pos := (300, 300), facing := 0, velocity := (0, 0), life := 1, width := 4, height := 4 }

/-- Game state for the C1 counterexample. -/
def sC1 : GameStateE :=
  { player := playerFar, shots := [shotC1], rocks := [rockC1], level := 0, score := 0,
    screen_width := 800, screen_height := 600, player_shot_timeout := 0 }

/-- C1 counterexample: the claim says collision detection is a
center-distance circle test, so a shot and rock whose centers are
within the sum of their collision radii (rock radius 6 and shot radius
2, half the texture sizes) are both marked dead with the score
incremented.  Here the center distance is `5 < 6 + 2`, yet
`handle_collision` — which actually intersects the corner-anchored
bounding rectangles — leaves both actors alive and the score at 0. -/
theorem claim_C1_counterexample :
    distLt shotC1.pos rockC1.pos (6 + 2) ∧
    (handle_collision sC1).rocks = [rockC1] ∧
    (handle_collision sC1).shots = [shotC1] ∧
    (handle_collision sC1).score = 0 := by
  refine ⟨by norm_num [distLt, distSq, shotC1, rockC1], ?_, ?_, ?_⟩
  · rw [show (handle_collision sC1).rocks
        = (handle_rocks sC1.player sC1.shots sC1.score sC1.rocks).2.2.2 from rfl,
      handle_rocks_rocks]
    norm_num [sC1, rockC1, shotC1, rockShotHit, bound, intersects]
  · rw [show (handle_collision sC1).shots
        = (handle_rocks sC1.player sC1.shots sC1.score sC1.rocks).2.1 from rfl,
      handle_rocks_shots]
    norm_num [sC1, rockC1, shotC1, rockShotHit, bound, intersects]
  · rw [show (handle_collision sC1).score
        = (handle_rocks sC1.player sC1.shots sC1.score sC1.rocks).2.2.1 from rfl,
      handle_rocks_score]
    norm_num [sC1, rockC1, shotC1, rockShotHit, bound, intersects]

/-- C1 as amended: the collision step is an axis-aligned rectangle
test, not a circle test.  The rectangles are anchored at the actors'
positions with the texture sizes as extents; whenever the rectangles of
rock `i` and shot `j` intersect, one call of `handle_collision` sets
both lives to 0 and increases the score by at least 1. -/
theorem claim_C1_rect_collision (s : GameStateE) (i j : ℕ)
    (hi : i < s.rocks.length) (hj : j < s.shots.length)
    (hhit : rockShotHit (s.rocks.get ⟨i, hi⟩) (s.shots.get ⟨j, hj⟩) = true) :
    ∃ (hi2 : i < (handle_collision s).rocks.length)
      (hj2 : j < (handle_collision s).shots.length),
      ((handle_collision s).rocks.get ⟨i, hi2⟩).life = 0 ∧
      ((handle_collision s).shots.get ⟨j, hj2⟩).life = 0 ∧
      s.score + 1 ≤ (handle_collision s).score := by
  have hrocks : (handle_collision s).rocks
      = s.rocks.map (fun r =>
          if s.shots.any (fun sh => rockShotHit r sh) then { r with life := 0 } else r) := by
    rw [show (handle_collision s).rocks
        = (handle_rocks s.player s.shots s.score s.rocks).2.2.2 from rfl, handle_rocks_rocks]
  have hshots : (handle_collision s).shots
      = s.shots.map (fun sh =>
          if s.rocks.any (fun r => rockShotHit r sh) then { sh with life := 0 } else sh) := by
    rw [show (handle_collision s).shots
        = (handle_rocks s.player s.shots s.score s.rocks).2.1 from rfl, handle_rocks_shots]
  have hscore : (handle_collision s).score
      = s.score + ((s.rocks.map (fun r =>
          (List.countP (fun sh => rockShotHit r sh) s.shots : ℤ))).sum) := by
    rw [show (handle_collision s).score
        = (handle_rocks s.player s.shots s.score s.rocks).2.2.1 from rfl, handle_rocks_score]
  have hi2 : i < (handle_collision s).rocks.length := by
    rw [hrocks, List.length_map]; exact hi
  have hj2 : j < (handle_collision s).shots.length := by
    rw [hshots, List.length_map]; exact hj
  refine ⟨hi2, hj2, ?_, ?_, ?_⟩
  · have hany : s.shots.any (fun sh => rockShotHit (s.rocks.get ⟨i, hi⟩) sh) = true :=
      List.any_eq_true.mpr ⟨s.shots.get ⟨j, hj⟩, List.get_mem _ _ _, hhit⟩
    simp only [List.get_eq_getElem] at hany ⊢
    simp only [hrocks, List.getElem_map, hany, if_true]
  · have hany : s.rocks.any (fun r => rockShotHit r (s.shots.get ⟨j, hj⟩)) = true :=
      List.any_eq_true.mpr ⟨s.rocks.get ⟨i, hi⟩, List.get_mem _ _ _, hhit⟩
    simp only [List.get_eq_getElem] at hany ⊢
    simp only [hshots, List.getElem_map, hany, if_true]
  · rw [hscore]
    have hmem : ((List.countP (fun sh => rockShotHit (s.rocks.get ⟨i, hi⟩) sh) s.shots : ℤ))
        ∈ s.rocks.map (fun r => (List.countP (fun sh => rockShotHit r sh) s.shots : ℤ)) :=
      List.mem_map_of_mem _ (List.get_mem _ _ _)
    have hone : (1 : ℤ) ≤ (List.countP (fun sh =>
        rockShotHit (s.rocks.get ⟨i, hi⟩) sh) s.shots : ℤ) := by
      have : 0 < List.countP (fun sh => rockShotHit (s.rocks.get ⟨i, hi⟩) sh) s.shots :=
        List.countP_pos_iff.mpr ⟨s.shots.get ⟨j, hj⟩, List.get_mem _ _ _, hhit⟩
      exact_mod_cast this
    have hsum : (List.countP (fun sh => rockShotHit (s.rocks.get ⟨i, hi⟩) sh) s.shots : ℤ)
        ≤ ((s.rocks.map (fun r => (List.countP (fun sh => rockShotHit r sh) s.shots : ℤ))).sum) :=
      List.single_le_sum (fun x hx => by
        obtain ⟨r, _, rfl⟩ := List.mem_map.mp hx
        positivity) _ hmem
    omega

/-- A 4 by 4 shot overlapping the rock `rockC1`. -/
def shotHitEx : ActorE :=
  { pos := (1, 1), facing := 0, velocity := (0, 0), life := 1, width := 4, height := 4 }

/-- Game state for the C1 witness: one rock, one overlapping shot. -/
def sC1w : GameStateE :=
  { player := playerFar, shots := [shotHitEx], rocks := [rockC1], level := 0, score := 0,
    screen_width := 800, screen_height := 600, player_shot_timeout := 0 }

/-- Witness for the amended C1 at a concrete intersecting pair. -/
theorem claim_C1_rect_collision_witness :
    ∃ (hi2 : 0 < (handle_collision sC1w).rocks.length)
      (hj2 : 0 < (handle_collision sC1w).shots.length),
      ((handle_collision sC1w).rocks.get ⟨0, hi2⟩).life = 0 ∧
      ((handle_collision sC1w).shots.get ⟨0, hj2⟩).life = 0 ∧
      sC1w.score + 1 ≤ (handle_collision sC1w).score := by
  exact claim_C1_rect_collision sC1w 0 0 (by norm_num [sC1w])
    (by norm_num [sC1w])
    (by norm_num [sC1w, rockC1, shotHitEx, rockShotHit, bound, intersects])

/-- First 4 by 4 shot overlapping `rockC1`. -/
def shotA : ActorE :=
  { pos := (1, 1), facing := 0, velocity := (0, 0), life := 1, width := 4, height := 4 }

/-- Second 4 by 4 shot overlapping `rockC1` in the same tick. -/
def shotB : ActorE :=
  { pos := (2, 2), facing := 0, velocity := (0, 0), life := 1, width := 4, height := 4 }

/-- Game state for the C2 counterexample: one rock, two overlapping
shots. -/
def sC2 : GameStateE :=
  { player := playerFar, shots := [shotA, shotB], rocks := [rockC1], level := 0, score := 0,
    screen_width := 800, screen_height := 600, player_shot_timeout := 0 }

/-- C2 counterexample: the claim says a rock is killed by at most one
shot per tick (first-match-wins), with the score increasing by exactly
1 for the destroyed rock and at most one shot consumed.  With two live
shots overlapping one rock, `handle_collision` consumes both shots and
adds 2 to the score: the inner loop has no early exit. -/
theorem claim_C2_counterexample :
    (handle_collision sC2).score = 2 ∧
    sC2.score = 0 ∧
    (handle_collision sC2).shots.map (fun a => a.life) = [0, 0] ∧
    (handle_collision sC2).rocks.map (fun a => a.life) = [0] := by
  have hsh : (handle_collision sC2).shots
      = sC2.shots.map (fun sh =>
          if sC2.rocks.any (fun r => rockShotHit r sh) then { sh with life := 0 } else sh) := by
    rw [show (handle_collision sC2).shots
        = (handle_rocks sC2.player sC2.shots sC2.score sC2.rocks).2.1 from rfl,
      handle_rocks_shots]
  have hrk : (handle_collision sC2).rocks
      = sC2.rocks.map (fun r =>
          if sC2.shots.any (fun sh => rockShotHit r sh) then { r with life := 0 } else r) := by
    rw [show (handle_collision sC2).rocks
        = (handle_rocks sC2.player sC2.shots sC2.score sC2.rocks).2.2.2 from rfl,
      handle_rocks_rocks]
  have hsc : (handle_collision sC2).score
      = sC2.score + ((sC2.rocks.map (fun r =>
          (List.countP (fun sh => rockShotHit r sh) sC2.shots : ℤ))).sum) := by
    rw [show (handle_collision sC2).score
        = (handle_rocks sC2.player sC2.shots sC2.score sC2.rocks).2.2.1 from rfl,
      handle_rocks_score]
  refine ⟨?_, rfl, ?_, ?_⟩
  · rw [hsc]
    norm_num [sC2, rockC1, shotA, shotB, rockShotHit, bound, intersects, List.countP_cons]
  · rw [hsh]
    norm_num [sC2, rockC1, shotA, shotB, rockShotHit, bound, intersects]
  · rw [hrk]
    norm_num [sC2, rockC1, shotA, shotB, rockShotHit, bound, intersects]

/-- C2 as amended: collision resolution is not first-match-wins; every
rock-shot pair whose rectangles intersect is resolved.  The score
increases by exactly the number of intersecting pairs (so a rock
overlapped by several shots contributes several points), and every shot
that intersects some rock is marked dead. -/
theorem claim_C2_score_per_pair (s : GameStateE) :
    (handle_collision s).score =
      s.score + ((s.rocks.map (fun r =>
        (List.countP (fun sh => rockShotHit r sh) s.shots : ℤ))).sum) ∧
    (handle_collision s).shots =
      s.shots.map (fun sh =>
        if s.rocks.any (fun r => rockShotHit r sh) then { sh with life := 0 } else sh) ∧
    (handle_collision s).rocks =
      s.rocks.map (fun r =>
        if s.shots.any (fun sh => rockShotHit r sh) then { r with life := 0 } else r) := by
  refine ⟨?_, ?_, ?_⟩
  · rw [show (handle_collision s).score
        = (handle_rocks s.player s.shots s.score s.rocks).2.2.1 from rfl, handle_rocks_score]
  · rw [show (handle_collision s).shots
        = (handle_rocks s.player s.shots s.score s.rocks).2.1 from rfl, handle_rocks_shots]
  · rw [show (handle_collision s).rocks
        = (handle_rocks s.player s.shots s.score s.rocks).2.2.2 from rfl, handle_rocks_rocks]

/-- Kinematic projection of an actor: position, velocity and facing. -/
def kin (a : ActorE) : (ℚ × ℚ) × (ℚ × ℚ) × ℚ := (a.pos, a.velocity, a.facing)

/-- C10: the collision step only writes `life` fields and the score:
positions, velocities and facings of the player and of every shot and
rock are unchanged, the level and both list lengths are unchanged, and
the score never decreases. -/
theorem claim_C10_collision_frame (s : GameStateE) :
    (handle_collision s).player.pos = s.player.pos ∧
    (handle_collision s).player.velocity = s.player.velocity ∧
    (handle_collision s).player.facing = s.player.facing ∧
    (handle_collision s).shots.map kin = s.shots.map kin ∧
    (handle_collision s).rocks.map kin = s.rocks.map kin ∧
    (handle_collision s).shots.length = s.shots.length ∧
    (handle_collision s).rocks.length = s.rocks.length ∧
    (handle_collision s).level = s.level ∧
    s.score ≤ (handle_collision s).score := by
  have hpl : (handle_collision s).player
      = (handle_rocks s.player s.shots s.score s.rocks).1 := rfl
  have hsh : (handle_collision s).shots
      = s.shots.map (fun sh =>
          if s.rocks.any (fun r => rockShotHit r sh) then { sh with life := 0 } else sh) := by
    rw [show (handle_collision s).shots
        = (handle_rocks s.player s.shots s.score s.rocks).2.1 from rfl, handle_rocks_shots]
  have hrk : (handle_collision s).rocks
      = s.rocks.map (fun r =>
          if s.shots.any (fun sh => rockShotHit r sh) then { r with life := 0 } else r) := by
    rw [show (handle_collision s).rocks
        = (handle_rocks s.player s.shots s.score s.rocks).2.2.2 from rfl, handle_rocks_rocks]
  have hsc : (handle_collision s).score
      = s.score + ((s.rocks.map (fun r =>
          (List.countP (fun sh => rockShotHit r sh) s.shots : ℤ))).sum) := by
    rw [show (handle_collision s).score
        = (handle_rocks s.player s.shots s.score s.rocks).2.2.1 from rfl, handle_rocks_score]
  refine ⟨?_, ?_, ?_, ?_, ?_, ?_, ?_, rfl, ?_⟩
  · rw [hpl, handle_rocks_player s.rocks s.player s.shots s.score]
    split <;> rfl
  · rw [hpl, handle_rocks_player s.rocks s.player s.shots s.score]
    split <;> rfl
  · rw [hpl, handle_rocks_player s.rocks s.player s.shots s.score]
    split <;> rfl
  · rw [hsh, List.map_map]
    exact List.map_congr_left (fun sh _ => by simp only [Function.comp]; split <;> rfl)
  · rw [hrk, List.map_map]
    exact List.map_congr_left (fun r _ => by simp only [Function.comp]; split <;> rfl)
  · rw [hsh, List.length_map]
  · rw [hrk, List.length_map]
  · rw [hsc]
    have : (0 : ℤ) ≤ ((s.rocks.map (fun r =>
        (List.countP (fun sh => rockShotHit r sh) s.shots : ℤ))).sum) :=
      List.sum_nonneg (fun x hx => by
        obtain ⟨r, _, rfl⟩ := List.mem_map.mp hx
        positivity)
    omega

/-- Embeds `struct InputState` (`xaxis` for turning, `yaxis` for
thrust, `fire` for the fire key). -/
structure InputStateE where
  xaxis : ℚ
  yaxis : ℚ
  fire : Bool
  deriving DecidableEq

/-- Embeds `player_handle_input`: turn by
`dt * PLAYER_TURN_RATE * xaxis`, then thrust if `yaxis > 0`.  `dir`
stands for `vec_from_angle` of the post-turn facing, used by the
thrust. -/
def player_handle_input (dir : ℚ × ℚ) (actor : ActorE) (input : InputStateE) (dt : ℚ) :
    ActorE :=
  let a1 := { actor with facing := actor.facing + dt * PLAYER_TURN_RATE * input.xaxis }
  if 0 < input.yaxis then player_thrust dir a1 dt else a1

/-- Embeds `GameState::fire_player_shot`: reset the shot timeout,
spawn a shot at the player's position and facing with velocity
`SHOT_SPEED * direction`, append it to the shots.  `dir` stands for
`vec_from_angle(shot.facing)`; `shotW`, `shotH` are the shot texture
dimensions from `Actor::create_shot`. -/
def fire_player_shot (dir : ℚ × ℚ) (shotW shotH : ℚ) (s : GameStateE) : GameStateE :=
  { s with player_shot_timeout := PLAYER_SHOT_TIME,
           shots := s.shots ++ [{ pos := s.player.pos, facing := s.player.facing,
                                  velocity := (SHOT_SPEED * dir.1, SHOT_SPEED * dir.2),
                                  life := SHOT_LIFE, width := shotW, height := shotH }] }

/-- Embeds the cooldown-and-firing step of `GameState::update`:
`player_shot_timeout -= dt`, then fire only when the fire key is down
and the decremented timeout is strictly negative. -/
def fire_step (dir : ℚ × ℚ) (shotW shotH dt : ℚ) (fire : Bool) (s : GameStateE) :
    GameStateE :=
  let s1 := { s with player_shot_timeout := s.player_shot_timeout - dt }
  if fire = true ∧ s1.player_shot_timeout < 0 then fire_player_shot dir shotW shotH s1
  else s1

/-- Embeds `GameState::check_for_level_respawn`: if the rocks list is
empty, increment the level and spawn `level + 5` rocks (with the
already-incremented level) around the player with radii 100 to 250. -/
def check_for_level_respawn (draws : ℕ → RockDraw) (rockW rockH : ℚ) (s : GameStateE) :
    Option GameStateE :=
  if s.rocks.isEmpty then
    (create_rocks draws rockW rockH s.player.pos 100 250 (s.level + 1 + 5).toNat).map
      (fun r => { s with level := s.level + 1, rocks := s.rocks ++ r })
  else some s

/-- The fixed tick length `1 / DESIRED_FPS` of `GameState::update`. -/
def DESIRED_DT : ℚ := 1 / 60

/-- Index-aware map used to supply each shot its own clamp magnitude
parameter in the physics loop. -/
def mapIdxFrom (f : ℕ → ActorE → ActorE) : ℕ → List ActorE → List ActorE
  | _, [] => []
  | i, a :: rest => f i a :: mapIdxFrom f (i + 1) rest

/-- Embeds the movement phase of `GameState::update` (input
application, cooldown and firing, then integrate and wrap the player
and every shot, decaying shot life).  `mPlayer` and `mShots i` stand
for the square roots taken inside `update_actor_position`. -/
def move_phase (input : InputStateE) (dir : ℚ × ℚ) (mPlayer : ℚ) (mShots : ℕ → ℚ)
    (shotW shotH : ℚ) (s : GameStateE) : GameStateE :=
  let s1 := fire_step dir shotW shotH DESIRED_DT input.fire
    { s with player := player_handle_input dir s.player input DESIRED_DT }
  { s1 with
    player := wrap_actor_position (update_actor_position s1.player mPlayer DESIRED_DT)
      s1.screen_width s1.screen_height,
    shots := mapIdxFrom (fun i a =>
      handle_timed_life (wrap_actor_position (update_actor_position a (mShots i) DESIRED_DT)
        s1.screen_width s1.screen_height) DESIRED_DT) 0 s1.shots }

/-- Embeds one tick of `GameState::update`: movement phase, collision,
cull, level respawn (the terminal game-over check only reads state). -/
def update (input : InputStateE) (dir : ℚ × ℚ) (mPlayer : ℚ) (mShots : ℕ → ℚ)
    (shotW shotH rockW rockH : ℚ) (draws : ℕ → RockDraw) (s : GameStateE) :
    Option GameStateE :=
  check_for_level_respawn draws rockW rockH
    (clear_dead_stuff (handle_collision
      (move_phase input dir mPlayer mShots shotW shotH s)))

/-- The firing step never changes the level. -/
theorem fire_step_level (dir : ℚ × ℚ) (shotW shotH dt : ℚ) (fire : Bool) (s : GameStateE) :
    (fire_step dir shotW shotH dt fire s).level = s.level := by
  simp only [fire_step, fire_player_shot]
  split <;> rfl

/-- The movement phase never changes the level. -/
theorem move_phase_level (input : InputStateE) (dir : ℚ × ℚ) (mPlayer : ℚ)
    (mShots : ℕ → ℚ) (shotW shotH : ℚ) (s : GameStateE) :
    (move_phase input dir mPlayer mShots shotW shotH s).level = s.level := by
  show (fire_step dir shotW shotH DESIRED_DT input.fire
    { s with player := player_handle_input dir s.player input DESIRED_DT }).level = s.level
  rw [fire_step_level]

/-- Game state for the C3 counterexample: cooldown `1/60`, which the
tick decrements to exactly 0. -/
def sC3 : GameStateE :=
  { player := playerFar, shots := [], rocks := [rockC1], level := 0, score := 0,
    screen_width := 800, screen_height := 600, player_shot_timeout := 1 / 60 }

/-- C3 counterexample: the claim says a shot is spawned when the
decremented cooldown is non-positive (`≤ 0`).  Starting from cooldown
`1/60`, one tick's decrement makes it exactly 0, the fire key is down,
yet the code (`timeout < 0.0`, strictly) spawns nothing and only
stores the decremented cooldown. -/
theorem claim_C3_counterexample :
    sC3.player_shot_timeout - 1 / 60 ≤ 0 ∧
    (fire_step (0, 1) 1 1 (1 / 60) true sC3).shots = [] ∧
    (fire_step (0, 1) 1 1 (1 / 60) true sC3).player_shot_timeout = 0 := by
  refine ⟨by norm_num [sC3], ?_, ?_⟩ <;>
    · simp only [fire_step, fire_player_shot]
      norm_num [sC3]

/-- C3 as amended: on a tick with the fire key down, a shot is spawned
exactly when the decremented cooldown is strictly negative; the shot
takes the player's position and facing with velocity
`SHOT_SPEED * dir` (`dir` standing for `vec_from_angle(facing)`), the
cooldown resets to `PLAYER_SHOT_TIME`; otherwise the request is
silently ignored and only the cooldown decrement happens. -/
theorem claim_C3_fire_cooldown (dir : ℚ × ℚ) (shotW shotH dt : ℚ) (fire : Bool)
    (s : GameStateE) :
    (fire = true → s.player_shot_timeout - dt < 0 →
      (fire_step dir shotW shotH dt fire s).shots =
        s.shots ++ [{ pos := s.player.pos, facing := s.player.facing,
                      velocity := (SHOT_SPEED * dir.1, SHOT_SPEED * dir.2),
                      life := SHOT_LIFE, width := shotW, height := shotH }] ∧
      (fire_step dir shotW shotH dt fire s).player_shot_timeout = PLAYER_SHOT_TIME ∧
      (fire_step dir shotW shotH dt fire s).player = s.player ∧
      (fire_step dir shotW shotH dt fire s).rocks = s.rocks ∧
      (fire_step dir shotW shotH dt fire s).score = s.score ∧
      (fire_step dir shotW shotH dt fire s).level = s.level) ∧
    (¬ (fire = true ∧ s.player_shot_timeout - dt < 0) →
      fire_step dir shotW shotH dt fire s =
        { s with player_shot_timeout := s.player_shot_timeout - dt }) := by
  have hred : fire_step dir shotW shotH dt fire s
      = if fire = true ∧ s.player_shot_timeout - dt < 0 then
          fire_player_shot dir shotW shotH
            { s with player_shot_timeout := s.player_shot_timeout - dt }
        else { s with player_shot_timeout := s.player_shot_timeout - dt } := rfl
  constructor
  · intro hf ht
    rw [hred, if_pos (And.intro hf ht)]
    exact ⟨rfl, rfl, rfl, rfl, rfl, rfl⟩
  · intro hn
    rw [hred, if_neg hn]

/-- Game state for the C3 witness: cooldown 0, decremented below 0 by
the tick. -/
def sC3w : GameStateE :=
  { player := playerFar, shots := [], rocks := [rockC1], level := 0, score := 0,
    screen_width := 800, screen_height := 600, player_shot_timeout := 0 }

/-- Witness for the amended C3: firing succeeds at cooldown 0 minus
one tick. -/
theorem claim_C3_fire_cooldown_witness :
    (fire_step (0, 1) 1 1 (1 / 60) true sC3w).shots =
      sC3w.shots ++ [{ pos := sC3w.player.pos, facing := sC3w.player.facing,
                       velocity := (SHOT_SPEED * (0 : ℚ), SHOT_SPEED * (1 : ℚ)),
                       life := SHOT_LIFE, width := 1, height := 1 }] ∧
    (fire_step (0, 1) 1 1 (1 / 60) true sC3w).player_shot_timeout = PLAYER_SHOT_TIME ∧
    (fire_step (0, 1) 1 1 (1 / 60) true sC3w).player = sC3w.player ∧
    (fire_step (0, 1) 1 1 (1 / 60) true sC3w).rocks = sC3w.rocks ∧
    (fire_step (0, 1) 1 1 (1 / 60) true sC3w).score = sC3w.score ∧
    (fire_step (0, 1) 1 1 (1 / 60) true sC3w).level = sC3w.level :=
  (claim_C3_fire_cooldown (0, 1) 1 1 (1 / 60) true sC3w).1 rfl (by norm_num [sC3w])

/-- C7: on a tick where the rocks list is empty after culling, the
respawn step increments the level by exactly 1 and appends exactly
`level + 5` rocks (with the incremented level), spawned around the
player's position with radii 100 to 250; when rocks remain, the state
is returned unchanged. -/
theorem claim_C7_level_respawn (draws : ℕ → RockDraw) (rockW rockH : ℚ) (s : GameStateE) :
    (s.rocks = [] → ∃ l,
      create_rocks draws rockW rockH s.player.pos 100 250 (s.level + 1 + 5).toNat = some l ∧
      l.length = (s.level + 1 + 5).toNat ∧
      (0 ≤ s.level → (l.length : ℤ) = (s.level + 1) + 5) ∧
      check_for_level_respawn draws rockW rockH s =
        some { s with level := s.level + 1, rocks := l }) ∧
    (s.rocks ≠ [] → check_for_level_respawn draws rockW rockH s = some s) := by
  constructor
  · intro he
    obtain ⟨l, hl, hlen⟩ := create_rocks_from_length draws rockW rockH s.player.pos 100 250
      (by norm_num) ((s.level + 1 + 5).toNat) 0
    have hl2 : create_rocks draws rockW rockH s.player.pos 100 250 (s.level + 1 + 5).toNat
        = some l := hl
    refine ⟨l, hl2, hlen, fun h0 => by omega, ?_⟩
    rw [check_for_level_respawn, if_pos (by simp [he]), hl2, Option.map_some']
    simp [he]
  · intro hne
    rw [check_for_level_respawn, if_neg (by simp [hne])]

/-- Game state for the C7 and C9 witnesses. -/
def sC7 : GameStateE :=
  { player := playerFar, shots := [], rocks := [], level := 0, score := 0,
    screen_width := 800, screen_height := 600, player_shot_timeout := 0 }

/-- Witness for C7 on a concrete empty-rocks state. -/
theorem claim_C7_level_respawn_witness :
    ∃ l, create_rocks dEx 1 1 sC7.player.pos 100 250 (sC7.level + 1 + 5).toNat = some l ∧
      l.length = (sC7.level + 1 + 5).toNat ∧
      (0 ≤ sC7.level → (l.length : ℤ) = (sC7.level + 1) + 5) ∧
      check_for_level_respawn dEx 1 1 sC7 =
        some { sC7 with level := sC7.level + 1, rocks := l } :=
  (claim_C7_level_respawn dEx 1 1 sC7).1 rfl

/-- After a respawn check starting from a nonnegative level, the rocks
list is never empty. -/
theorem check_for_level_respawn_rocks (draws : ℕ → RockDraw) (rockW rockH : ℚ)
    (t s2 : GameStateE) (h0 : 0 ≤ t.level)
    (h : check_for_level_respawn draws rockW rockH t = some s2) : s2.rocks ≠ [] := by
  by_cases he : t.rocks.isEmpty
  · obtain ⟨l, hl, hlen⟩ := create_rocks_from_length draws rockW rockH t.player.pos 100 250
      (by norm_num) ((t.level + 1 + 5).toNat) 0
    rw [check_for_level_respawn, if_pos he] at h
    have hl2 : create_rocks draws rockW rockH t.player.pos 100 250 (t.level + 1 + 5).toNat
        = some l := hl
    rw [hl2, Option.map_some'] at h
    have hs2 : s2 = { t with level := t.level + 1, rocks := t.rocks ++ l } :=
      (Option.some.inj h).symm
    have hrocks : s2.rocks = t.rocks ++ l := by rw [hs2]
    have hte : t.rocks = [] := List.isEmpty_iff.mp he
    have hlpos : l ≠ [] := by
      have : 0 < l.length := by omega
      exact List.length_pos.mp this
    rw [hrocks, hte, List.nil_append]
    exact hlpos
  · rw [check_for_level_respawn, if_neg he] at h
    have hs2 : s2 = t := (Option.some.inj h).symm
    rw [hs2]
    intro hcon
    exact he (by simp [hcon])

/-- C9: after every completed update tick started from a state with a
nonnegative level, the rocks list is non-empty: whenever culling
empties it, the respawn step of the same tick refills it with
`level + 5 ≥ 6` rocks. -/
theorem claim_C9_rocks_nonempty (input : InputStateE) (dir : ℚ × ℚ) (mPlayer : ℚ)
    (mShots : ℕ → ℚ) (shotW shotH rockW rockH : ℚ) (draws : ℕ → RockDraw)
    (s s2 : GameStateE) (hlevel : 0 ≤ s.level)
    (hupd : update input dir mPlayer mShots shotW shotH rockW rockH draws s = some s2) :
    s2.rocks ≠ [] := by
  simp only [update] at hupd
  refine check_for_level_respawn_rocks draws rockW rockH _ s2 ?_ hupd
  have hlev : (clear_dead_stuff (handle_collision
      (move_phase input dir mPlayer mShots shotW shotH s))).level = s.level := by
    show (move_phase input dir mPlayer mShots shotW shotH s).level = s.level
    exact move_phase_level input dir mPlayer mShots shotW shotH s
  rw [hlev]
  exact hlevel

/-- Input snapshot with no keys pressed. -/
def inp0 : InputStateE := { xaxis := 0, yaxis := 0, fire := false }

/-- Game state for the C9 witness: one live rock far from the idle
player. -/
def sC9 : GameStateE :=
  { player := playerFar, shots := [], rocks := [rockC1], level := 0, score := 0,
    screen_width := 800, screen_height := 600, player_shot_timeout := 0 }

/-- Witness for C9: one concrete tick from `sC9` keeps the rocks list
non-empty. -/
theorem claim_C9_rocks_nonempty_witness :
    ({ sC9 with player_shot_timeout := -(1 / 60) } : GameStateE).rocks ≠ [] := by
  refine claim_C9_rocks_nonempty inp0 (0, 1) 1 (fun _ => 1) 1 1 1 1 dEx sC9
    { sC9 with player_shot_timeout := -(1 / 60) } (by norm_num [sC9]) ?_
  norm_num [update, move_phase, fire_step, fire_player_shot, player_handle_input,
    player_thrust, update_actor_position, wrap_actor_position, handle_timed_life,
    mapIdxFrom, handle_collision, handle_rocks, handle_shots, clear_dead_stuff,
    check_for_level_respawn, rockPlayerHit, rockShotHit, bound, intersects,
    magnitude_squared, sC9, playerFar, rockC1, inp0, DESIRED_DT, PLAYER_TURN_RATE,
    PLAYER_THRUST, MAX_PHYSICS_VEL, List.filter, List.isEmpty]
